import Mathlib

/-!
Verification of the BlockLens pace projection engine.

This file is a shallow embedding of `src/utils/calculations.ts` and
`src/utils/constants.js`.  JavaScript numbers are modelled as elements of a
linear ordered field: the purely rational parts of the engine are stated
polymorphically over any `LinearOrderedField` (so they can be instantiated
both at `ℚ`, where they are executable, and at `ℝ`); the Riegel power-law
parts, which raise to the non-integer exponent 1.06, are modelled over `ℝ`
with `Real.rpow`.  JavaScript strings are modelled as lists of characters.
Decimal constants from the source (3.1, 0.5, 1.5, …) are written with
`Rat.divInt` (e.g. `Rat.divInt 31 10` for 3.1) so that they are exact
rationals, as the corresponding double literals are exactly representable
neither in binary floating point nor relevant here beyond their value; the
doc comment of each constant records the decimal notation of the source.
-/

namespace BlockLens

/-- The four race keys of `RaceKey` in `src/types` (`'5k' | '10k' | 'half' | 'marathon'`). -/
inductive RaceKey : Type
| fivek
| tenk
| half
| marathon
deriving DecidableEq

/-- One row of the `RACE_DISTANCES` table (`constants.js`): display label and
distances in miles and kilometres. -/
structure RaceDistance : Type where
  label : String
  miles : ℚ
  km : ℚ
deriving DecidableEq

/-- `RACE_DISTANCES` from `constants.js`:
`'5k' ↦ 3.1 mi / 5 km`, `'10k' ↦ 6.2 mi / 10 km`,
`'half' ↦ 13.1 mi / 21.1 km`, `'marathon' ↦ 26.2 mi / 42.2 km`. -/
def RACE_DISTANCES : RaceKey → RaceDistance
| .fivek => ⟨"5K", Rat.divInt 31 10, 5⟩
| .tenk => ⟨"10K", Rat.divInt 62 10, 10⟩
| .half => ⟨"Half Marathon", Rat.divInt 131 10, Rat.divInt 211 10⟩
| .marathon => ⟨"Marathon", Rat.divInt 262 10, Rat.divInt 422 10⟩

/-- `RIEGEL_EXPONENT = 1.06` from `constants.js`. -/
noncomputable def RIEGEL_EXPONENT : ℝ := 106 / 100

/-- The `FADE_MODEL` constant record from `constants.js`. -/
structure FadeModelConstants : Type where
  AGGRESSION_MULTIPLIER : ℚ
  FADE_ONSET_FRACTION : ℚ
  MAX_FADE_RATE : ℚ

/-- `FADE_MODEL` from `constants.js`:
`AGGRESSION_MULTIPLIER = 1.5`, `FADE_ONSET_FRACTION = 0.5`, `MAX_FADE_RATE = 30`. -/
def FADE_MODEL : FadeModelConstants :=
  ⟨Rat.divInt 3 2, Rat.divInt 1 2, 30⟩

/-- The `RISK_THRESHOLDS` constant record from `constants.js`:
`LOW = 5`, `MODERATE = 15`, `HIGH = 25`. -/
structure RiskThresholdConstants : Type where
  LOW : ℚ
  MODERATE : ℚ
  HIGH : ℚ

/-- `RISK_THRESHOLDS` from `constants.js`. -/
def RISK_THRESHOLDS : RiskThresholdConstants := ⟨5, 15, 25⟩

/-- The five risk levels returned by `assessFadeRisk`
(`'conservative' | 'low' | 'moderate' | 'high' | 'very-high'`). -/
inductive RiskLevel : Type
| conservative
| low
| moderate
| high
| veryHigh
deriving DecidableEq

/-- The record returned by `assessFadeRisk` (`FadeRiskAssessment` in `src/types`). -/
structure FadeRiskAssessment : Type where
  level : RiskLevel
  color : String
  message : String
deriving DecidableEq

/-- `calculateFadeAdjustment(pacingDeviation, raceFraction)` from
`calculations.ts` lines 228-245: zero for non-positive deviation, otherwise
the squared rescaled back-half progress times `AGGRESSION_MULTIPLIER` times
the deviation (zero before `FADE_ONSET_FRACTION`), clamped to `MAX_FADE_RATE`. -/
def calculateFadeAdjustment {α : Type*} [LinearOrderedField α]
    (pacingDeviation raceFraction : α) : α :=
  if pacingDeviation ≤ 0 then 0
  else
    let fadeFactor : α :=
      if raceFraction > ((FADE_MODEL.FADE_ONSET_FRACTION : ℚ) : α) then
        ((raceFraction - ((FADE_MODEL.FADE_ONSET_FRACTION : ℚ) : α)) /
            (1 - ((FADE_MODEL.FADE_ONSET_FRACTION : ℚ) : α))) ^ 2 *
          ((FADE_MODEL.AGGRESSION_MULTIPLIER : ℚ) : α) * pacingDeviation
      else 0
    min fadeFactor ((FADE_MODEL.MAX_FADE_RATE : ℚ) : α)

/-- One element of the array returned by `generateSplits` (`Split` in `src/types`). -/
structure Split (α : Type*) : Type _ where
  mile : ℕ
  distance : α
  pace : α
  splitTime : α
  cumulativeTime : α
  fadeAdjustment : α
deriving DecidableEq

/-- The body of the `for` loop of `generateSplits` (`calculations.ts` lines
268-292), recursing over the list of remaining mile ordinals and threading the
`cumulativeTime` accumulator. -/
def splitsGo {α : Type*} [LinearOrderedField α] [FloorRing α]
    (distance sustainablePace pacingAdjustment pacingDeviation : α) :
    List ℕ → α → List (Split α)
| [], _ => []
| mile :: rest, cumulativeTime =>
    let raceFraction : α := (mile : α) / distance
    let mileDistance : α :=
      if (mile : α) > distance then distance - ((⌊distance⌋ : ℤ) : α) else 1
    let startPace : α := sustainablePace + pacingAdjustment
    let fadeAdjustment : α := calculateFadeAdjustment pacingDeviation raceFraction
    let actualPace : α := startPace + fadeAdjustment
    let splitTime : α := actualPace * mileDistance
    let cumulativeTime2 : α := cumulativeTime + splitTime
    ⟨mile, mileDistance, actualPace, splitTime, cumulativeTime2, fadeAdjustment⟩ ::
      splitsGo distance sustainablePace pacingAdjustment pacingDeviation rest cumulativeTime2

/-- `generateSplits(goalRaceKey, sustainablePace, pacingAdjustment)` from
`calculations.ts` lines 255-295: iterates `mile` from 1 to `ceil(distance)`
with `pacingDeviation = -pacingAdjustment` and cumulative time starting at 0. -/
def generateSplits {α : Type*} [LinearOrderedField α] [FloorRing α]
    (goalRaceKey : RaceKey) (sustainablePace pacingAdjustment : α) : List (Split α) :=
  let distance : α := (((RACE_DISTANCES goalRaceKey).miles : ℚ) : α)
  let pacingDeviation : α := -pacingAdjustment
  splitsGo distance sustainablePace pacingAdjustment pacingDeviation
    (List.range' 1 (⌈distance⌉ : ℤ).toNat) 0

/-- `assessFadeRisk(pacingDeviation)` from `calculations.ts` lines 303-341. -/
def assessFadeRisk {α : Type*} [LinearOrderedField α]
    (pacingDeviation : α) : FadeRiskAssessment :=
  if pacingDeviation ≤ 0 then
    ⟨.conservative, "blue", "Conservative start - may have time to spare"⟩
  else if pacingDeviation ≤ ((RISK_THRESHOLDS.LOW : ℚ) : α) then
    ⟨.low, "green", "Low risk - slight positive split likely"⟩
  else if pacingDeviation ≤ ((RISK_THRESHOLDS.MODERATE : ℚ) : α) then
    ⟨.moderate, "yellow", "Moderate risk - expect noticeable fade in final miles"⟩
  else if pacingDeviation ≤ ((RISK_THRESHOLDS.HIGH : ℚ) : α) then
    ⟨.high, "orange", "High risk - significant slowdown likely"⟩
  else
    ⟨.veryHigh, "red", "Very high risk - blow-up territory"⟩

/-- `predictRaceTime(knownTimeSeconds, knownDistanceMiles, targetDistanceMiles)`
from `calculations.ts` lines 189-195: the Riegel formula
`T1 * (D2/D1) ^ RIEGEL_EXPONENT`, over `ℝ` since the exponent is not an integer. -/
noncomputable def predictRaceTime
    (knownTimeSeconds knownDistanceMiles targetDistanceMiles : ℝ) : ℝ :=
  knownTimeSeconds * (targetDistanceMiles / knownDistanceMiles) ^ RIEGEL_EXPONENT

/-- `calculateSustainablePace(recentRaceKey, recentTimeSeconds, goalRaceKey)`
from `calculations.ts` lines 206-216: Riegel-predicted goal time divided by
the goal distance. -/
noncomputable def calculateSustainablePace
    (recentRaceKey : RaceKey) (recentTimeSeconds : ℝ) (goalRaceKey : RaceKey) : ℝ :=
  let recentDistance : ℝ := ((RACE_DISTANCES recentRaceKey).miles : ℝ)
  let goalDistance : ℝ := ((RACE_DISTANCES goalRaceKey).miles : ℝ)
  let predictedTime : ℝ := predictRaceTime recentTimeSeconds recentDistance goalDistance
  predictedTime / goalDistance

/-- The argument record of `calculateProjection` (`ProjectionInputs` in `src/types`). -/
structure ProjectionInputs : Type where
  goalRace : RaceKey
  goalTimeSeconds : ℝ
  recentRace : RaceKey
  recentTimeSeconds : ℝ
  pacingAdjustment : ℝ

/-- The result record of `calculateProjection` (`ProjectionResult` in `src/types`). -/
structure ProjectionResult : Type where
  sustainablePace : ℝ
  goalPace : ℝ
  startPace : ℝ
  splits : List (Split ℝ)
  projectedFinishTime : ℝ
  fadeRisk : FadeRiskAssessment
  goalDistance : ℝ
  timeDelta : ℝ

/-- `calculateProjection(inputs)` from `calculations.ts` lines 349-389. -/
noncomputable def calculateProjection (inputs : ProjectionInputs) : ProjectionResult :=
  let sustainablePace : ℝ :=
    calculateSustainablePace inputs.recentRace inputs.recentTimeSeconds inputs.goalRace
  let goalDistance : ℝ := ((RACE_DISTANCES inputs.goalRace).miles : ℝ)
  let goalPace : ℝ := inputs.goalTimeSeconds / goalDistance
  let splits : List (Split ℝ) :=
    generateSplits inputs.goalRace sustainablePace inputs.pacingAdjustment
  let projectedFinishTime : ℝ := splits.foldl (fun sum s => sum + s.splitTime) 0
  let startPace : ℝ := sustainablePace + inputs.pacingAdjustment
  let pacingDeviation : ℝ := sustainablePace - startPace
  let fadeRisk : FadeRiskAssessment := assessFadeRisk pacingDeviation
  { sustainablePace := sustainablePace
    goalPace := goalPace
    startPace := startPace
    splits := splits
    projectedFinishTime := projectedFinishTime
    fadeRisk := fadeRisk
    goalDistance := goalDistance
    timeDelta := projectedFinishTime - inputs.goalTimeSeconds }

/-- The result union of `validateTimeString` (`ValidationResult` in `src/types`),
as the tagged variant `{valid: true, seconds}` / `{valid: false, error}`. -/
inductive ValidationResult : Type
| valid (seconds : ℤ)
| invalid (error : String)
deriving DecidableEq

/-- Whitespace predicate used to model `String.prototype.trim` (the inputs of
interest contain only digits, colons and ASCII whitespace, for which this
agrees with the JavaScript definition). -/
def isJsWhitespace (c : Char) : Bool := c.isWhitespace

/-- Model of `timeStr.trim()`: drop whitespace from both ends. -/
def jsTrim (s : List Char) : List Char :=
  ((s.dropWhile isJsWhitespace).reverse.dropWhile isJsWhitespace).reverse

/-- Model of `String.prototype.split(':')` on a list of characters, with the
JavaScript semantics: `n+1` (possibly empty) fields for `n` colons, e.g.
`":30" ↦ ["", "30"]` and `"" ↦ [""]`. -/
def splitOnColon : List Char → List (List Char)
| [] => [[]]
| c :: rest =>
    if c = ':' then [] :: splitOnColon rest
    else
      match splitOnColon rest with
      | [] => [[c]]
      | group :: groups => (c :: group) :: groups

/-- Model of the JavaScript `Number(...)` coercion as used on the
colon-separated fields of `validateTimeString` (line 44 of `calculations.ts`).
At that point each field is a string of decimal digits (possibly empty), since
the input already matched `/^[\d:]+$/`: `Number` maps the empty string to `0`,
a digit string to its value, and anything else to `NaN` (modelled as `none`). -/
def jsNumber (s : List Char) : Option ℤ :=
  if s.all (fun c => c.isDigit) then
    some (s.foldl (fun a c => 10 * a + ((c.toNat : ℤ) - 48)) 0)
  else none

/-- `validateTimeString(timeStr)` from `calculations.ts` lines 23-76.  The
`null`/`undefined`/non-string guard of line 24 collapses, for actual strings,
into the same "empty" rejection as line 29, since `!timeStr` is true exactly
for the empty string. -/
def validateTimeString (timeStr : List Char) : ValidationResult :=
  let trimmed := jsTrim timeStr
  if trimmed = [] then .invalid "Enter a time"
  else if ¬ (trimmed.all (fun c => c.isDigit || c == ':')) then
    .invalid "Use format M:SS or H:MM:SS"
  else
    let parts := splitOnColon trimmed
    if parts.length < 2 ∨ parts.length > 3 then .invalid "Use format M:SS or H:MM:SS"
    else
      let nums := parts.map jsNumber
      if nums.any (fun n => n.isNone || n.getD 0 < 0) then
        .invalid "Invalid number in time"
      else if parts.length = 2 then
        match nums with
        | [m, s] =>
            let minutes := m.getD 0
            let seconds := s.getD 0
            if seconds ≥ 60 then .invalid "Seconds must be 0-59"
            else if minutes = 0 ∧ seconds = 0 then .invalid "Time must be greater than 0"
            else .valid (minutes * 60 + seconds)
        | _ => .invalid "Use format M:SS or H:MM:SS"
      else if parts.length = 3 then
        match nums with
        | [h, m, s] =>
            let hours := h.getD 0
            let minutes := m.getD 0
            let seconds := s.getD 0
            if minutes ≥ 60 then .invalid "Minutes must be 0-59"
            else if seconds ≥ 60 then .invalid "Seconds must be 0-59"
            else if hours = 0 ∧ minutes = 0 ∧ seconds = 0 then
              .invalid "Time must be greater than 0"
            else .valid (hours * 3600 + minutes * 60 + seconds)
        | _ => .invalid "Use format M:SS or H:MM:SS"
      else .invalid "Use format M:SS or H:MM:SS"

/-- The decimal digits of `n`, most significant first: model of the JavaScript
rendering `${n}` of a non-negative integer. -/
def natToDigits (n : ℕ) : List Char :=
  if _h : n < 10 then [Nat.digitChar n]
  else natToDigits (n / 10) ++ [Nat.digitChar (n % 10)]
decreasing_by exact Nat.div_lt_self (by omega) (by omega)

/-- Model of the JavaScript rendering `${n}` / `String(n)` of an integer. -/
def intRepr (n : ℤ) : List Char :=
  if n < 0 then '-' :: natToDigits n.natAbs else natToDigits n.toNat

/-- Model of `String(n).padStart(2, '0')`: left-pad to length 2 with zeros. -/
def padStart2 (s : List Char) : List Char :=
  List.replicate (2 - s.length) '0' ++ s

/-- Truncation toward zero, as performed on the quotient by the JavaScript `%`
operator. -/
def jsTrunc {α : Type*} [LinearOrderedField α] [FloorRing α] (x : α) : ℤ :=
  if x < 0 then ⌈x⌉ else ⌊x⌋

/-- The JavaScript remainder operator `a % b`: `a - b * trunc(a / b)`. -/
def jsMod {α : Type*} [LinearOrderedField α] [FloorRing α] (a b : α) : α :=
  a - b * ((jsTrunc (a / b) : ℤ) : α)

/-- `secondsToTime(totalSeconds)` from `calculations.ts` lines 90-99:
`H:MM:SS` when at least one hour, else `M:SS`; the seconds component is
rounded (`Math.round(x)` agrees with Mathlib `round` as both equal
`⌊x + 0.5⌋`), minutes and hours are floored. -/
def secondsToTime {α : Type*} [LinearOrderedField α] [FloorRing α]
    (totalSeconds : α) : List Char :=
  let hours : ℤ := ⌊totalSeconds / 3600⌋
  let minutes : ℤ := ⌊jsMod totalSeconds 3600 / 60⌋
  let seconds : ℤ := round (jsMod totalSeconds 60)
  if hours > 0 then
    intRepr hours ++ ':' :: (padStart2 (intRepr minutes) ++ ':' :: padStart2 (intRepr seconds))
  else
    intRepr minutes ++ ':' :: padStart2 (intRepr seconds)

/-- `formatPace(secondsPerMile)` from `calculations.ts` lines 104-108: always
`M:SS`, seconds rounded and zero-padded. -/
def formatPace {α : Type*} [LinearOrderedField α] [FloorRing α]
    (secondsPerMile : α) : List Char :=
  let minutes : ℤ := ⌊secondsPerMile / 60⌋
  let seconds : ℤ := round (jsMod secondsPerMile 60)
  intRepr minutes ++ ':' :: padStart2 (intRepr seconds)

/-- The hours/minutes/seconds fields that `validateTimeString` destructures
from its input (`h = 0` for the two-field form), used to state the success
value `h*3600 + m*60 + s` of the spec. -/
def timeFields (s : List Char) : ℤ × ℤ × ℤ :=
  let nums := (splitOnColon (jsTrim s)).map (fun p => (jsNumber p).getD 0)
  match nums with
  | [m, sec] => (0, m, sec)
  | [h, m, sec] => (h, m, sec)
  | _ => (0, 0, 0)

section FadeLemmas

variable {α : Type*} [LinearOrderedField α]

theorem fadeOnset_cast : ((FADE_MODEL.FADE_ONSET_FRACTION : ℚ) : α) = 0.5 := by
  norm_num [FADE_MODEL, Rat.divInt_eq_div]

theorem aggression_cast : ((FADE_MODEL.AGGRESSION_MULTIPLIER : ℚ) : α) = 1.5 := by
  norm_num [FADE_MODEL, Rat.divInt_eq_div]

theorem maxFade_cast : ((FADE_MODEL.MAX_FADE_RATE : ℚ) : α) = 30 := by
  norm_num [FADE_MODEL]

/-- C1: for every pacing deviation `d` and race fraction `f`,
`calculateFadeAdjustment d f` is exactly 0 when `d ≤ 0`; 0 when `0 < d` and
`f ≤ 0.5`; and otherwise `min (((f - 0.5) / (1 - 0.5))^2 * 1.5 * d) 30`, the
squared rescaled back-half progress times the aggression multiplier times the
deviation, clamped to 30. -/
theorem C1_calculateFadeAdjustment_piecewise (d f : α) :
    calculateFadeAdjustment d f =
      if d ≤ 0 then 0
      else if f ≤ 0.5 then 0
      else min (((f - 0.5) / (1 - 0.5)) ^ 2 * 1.5 * d) 30 := by
  simp only [calculateFadeAdjustment, fadeOnset_cast, aggression_cast, maxFade_cast,
    gt_iff_lt]
  split_ifs <;> first
    | rfl
    | exact min_eq_left (by norm_num)
    | (exfalso; linarith)

theorem calculateFadeAdjustment_nonneg (v f : α) : 0 ≤ calculateFadeAdjustment v f := by
  unfold calculateFadeAdjustment
  split_ifs with h1 h2
  · exact le_refl 0
  · refine le_min ?_ (by rw [maxFade_cast]; norm_num)
    have hv : 0 < v := not_le.mp h1
    rw [aggression_cast]
    positivity
  · exact le_min (le_refl 0) (by rw [maxFade_cast]; norm_num)

end FadeLemmas

section RiskLemmas

variable {α : Type*} [LinearOrderedField α]

theorem risk_casts :
    ((RISK_THRESHOLDS.LOW : ℚ) : α) = 5 ∧ ((RISK_THRESHOLDS.MODERATE : ℚ) : α) = 15 ∧
      ((RISK_THRESHOLDS.HIGH : ℚ) : α) = 25 := by
  norm_num [RISK_THRESHOLDS]

/-- C4: `assessFadeRisk` classifies a pacing deviation `d` into the bands
`d ≤ 0 ↦ conservative`, `0 < d ≤ 5 ↦ low`, `5 < d ≤ 15 ↦ moderate`,
`15 < d ≤ 25 ↦ high`, `25 < d ↦ very-high`, with inclusive upper bounds and a
fixed color/message per tier; in particular the five sample deviations
-10, 3, 12, 20, 30 hit the five tiers in order. -/
theorem C4_assessFadeRisk_bands :
    (∀ d : α, assessFadeRisk d =
      if d ≤ 0 then ⟨.conservative, "blue", "Conservative start - may have time to spare"⟩
      else if d ≤ 5 then ⟨.low, "green", "Low risk - slight positive split likely"⟩
      else if d ≤ 15 then
        ⟨.moderate, "yellow", "Moderate risk - expect noticeable fade in final miles"⟩
      else if d ≤ 25 then ⟨.high, "orange", "High risk - significant slowdown likely"⟩
      else ⟨.veryHigh, "red", "Very high risk - blow-up territory"⟩) ∧
    (assessFadeRisk (-10 : ℚ)).level = .conservative ∧
    (assessFadeRisk (3 : ℚ)).level = .low ∧
    (assessFadeRisk (12 : ℚ)).level = .moderate ∧
    (assessFadeRisk (20 : ℚ)).level = .high ∧
    (assessFadeRisk (30 : ℚ)).level = .veryHigh := by
  constructor
  · intro d
    simp only [assessFadeRisk, risk_casts.1, risk_casts.2.1, risk_casts.2.2]
  · refine ⟨?_, ?_, ?_, ?_, ?_⟩ <;>
      norm_num [assessFadeRisk, RISK_THRESHOLDS, Rat.cast_id]

end RiskLemmas

/-- C9: `validateTimeString` treats an empty colon-separated field as the
number 0 (the modelled `Number('')` is 0), so `":30"` parses as 30 seconds and
`"1::5"` as 3605 seconds. -/
theorem C9_empty_fields_accepted :
    jsNumber [] = some 0 ∧
    validateTimeString (String.data ":30") = .valid 30 ∧
    validateTimeString (String.data "1::5") = .valid 3605 := by decide

theorem race_miles_pos : ∀ k : RaceKey, (0 : ℚ) < (RACE_DISTANCES k).miles := by
  intro k
  cases k <;> decide

/-- The sustainable pace in closed form: `T / r^E * g^(E-1)` for recent
distance `r` and goal distance `g`. -/
theorem sustainablePace_formula (recentKey : RaceKey) (T : ℝ) (goalKey : RaceKey) :
    calculateSustainablePace recentKey T goalKey =
      T / ((RACE_DISTANCES recentKey).miles : ℝ) ^ RIEGEL_EXPONENT *
        ((RACE_DISTANCES goalKey).miles : ℝ) ^ (RIEGEL_EXPONENT - 1) := by
  have hr : (0 : ℝ) < ((RACE_DISTANCES recentKey).miles : ℝ) := by
    exact_mod_cast race_miles_pos recentKey
  have hg : (0 : ℝ) < ((RACE_DISTANCES goalKey).miles : ℝ) := by
    exact_mod_cast race_miles_pos goalKey
  set r : ℝ := ((RACE_DISTANCES recentKey).miles : ℝ)
  set g : ℝ := ((RACE_DISTANCES goalKey).miles : ℝ)
  show T * (g / r) ^ RIEGEL_EXPONENT / g = T / r ^ RIEGEL_EXPONENT * g ^ (RIEGEL_EXPONENT - 1)
  rw [Real.div_rpow hg.le hr.le, Real.rpow_sub hg]
  rw [Real.rpow_one]
  field_simp

/-- C5: for a fixed recent race and a positive recent time, the sustainable
pace is strictly increasing in the goal distance: a goal race with a strictly
shorter mile distance gets a strictly smaller (faster) pace. -/
theorem C5_sustainablePace_strict_mono (recentKey : RaceKey) (T : ℚ) (hT : 0 < T)
    (A B : RaceKey) (hAB : (RACE_DISTANCES A).miles < (RACE_DISTANCES B).miles) :
    calculateSustainablePace recentKey (T : ℝ) A <
      calculateSustainablePace recentKey (T : ℝ) B := by
  have hr : (0 : ℝ) < ((RACE_DISTANCES recentKey).miles : ℝ) := by
    exact_mod_cast race_miles_pos recentKey
  have hA : (0 : ℝ) < ((RACE_DISTANCES A).miles : ℝ) := by exact_mod_cast race_miles_pos A
  have hAB2 : ((RACE_DISTANCES A).miles : ℝ) < ((RACE_DISTANCES B).miles : ℝ) := by
    exact_mod_cast hAB
  have hT2 : (0 : ℝ) < (T : ℝ) := by exact_mod_cast hT
  rw [sustainablePace_formula, sustainablePace_formula]
  have hc : (0 : ℝ) < (T : ℝ) / ((RACE_DISTANCES recentKey).miles : ℝ) ^ RIEGEL_EXPONENT :=
    div_pos hT2 (Real.rpow_pos_of_pos hr _)
  have hexp : (0 : ℝ) < RIEGEL_EXPONENT - 1 := by
    rw [RIEGEL_EXPONENT]; norm_num
  exact mul_lt_mul_of_pos_left (Real.rpow_lt_rpow hA.le hAB2 hexp) hc

/-- Witness for C5: a 20:00 5K performance gives a strictly faster sustainable
pace for the 10K goal than for the half-marathon goal. -/
theorem C5_sustainablePace_strict_mono_witness :
    ((0 : ℚ) < 1200 ∧ (RACE_DISTANCES RaceKey.tenk).miles < (RACE_DISTANCES RaceKey.half).miles) ∧
      calculateSustainablePace RaceKey.fivek ((1200 : ℚ) : ℝ) RaceKey.tenk <
        calculateSustainablePace RaceKey.fivek ((1200 : ℚ) : ℝ) RaceKey.half :=
  ⟨⟨by decide, by decide⟩,
    C5_sustainablePace_strict_mono RaceKey.fivek 1200 (by decide) RaceKey.tenk RaceKey.half
      (by decide)⟩

section SplitsLemmas

variable {α : Type*} [LinearOrderedField α] [FloorRing α]

theorem splitsGo_map_mile (d p a v : α) (ms : List ℕ) (c : α) :
    (splitsGo d p a v ms c).map Split.mile = ms := by
  induction ms generalizing c with
  | nil => rfl
  | cons m rest ih => simp [splitsGo, ih]

theorem splitsGo_map_distance (d p a v : α) (ms : List ℕ) (c : α) :
    (splitsGo d p a v ms c).map Split.distance =
      ms.map (fun (mile : ℕ) => if d < (mile : α) then d - ((⌊d⌋ : ℤ) : α) else 1) := by
  induction ms generalizing c with
  | nil => rfl
  | cons m rest ih => simp only [splitsGo, List.map_cons, ih, gt_iff_lt]

theorem splitsGo_map_fade (d p a v : α) (ms : List ℕ) (c : α) :
    (splitsGo d p a v ms c).map Split.fadeAdjustment =
      ms.map (fun (mile : ℕ) => calculateFadeAdjustment v ((mile : α) / d)) := by
  induction ms generalizing c with
  | nil => rfl
  | cons m rest ih => simp only [splitsGo, List.map_cons, ih]

theorem splitsGo_chain (d p a v : α) (ms : List ℕ)
    (h : ∀ mile ∈ ms, 0 < (p + a + calculateFadeAdjustment v ((mile : α) / d)) *
      (if d < (mile : α) then d - ((⌊d⌋ : ℤ) : α) else 1)) :
    ∀ c : α, List.Chain' (fun x y => x < y)
      (c :: (splitsGo d p a v ms c).map (fun s => s.cumulativeTime)) := by
  induction ms with
  | nil => intro c; simp [splitsGo]
  | cons m rest ih =>
      intro c
      have hstep := h m (List.mem_cons_self m rest)
      simp only [splitsGo, List.map_cons, gt_iff_lt]
      rw [List.chain'_cons]
      constructor
      · exact lt_add_of_pos_right c hstep
      · exact ih (fun mile hm => h mile (List.mem_cons_of_mem m hm)) _

theorem map_mileDistance_eval (q : ℚ) (n : ℕ) (hn : 1 ≤ n)
    (hmid : ((n - 1 : ℕ) : ℚ) ≤ q) (hlast : q < (n : ℚ)) :
    (List.range' 1 n).map
        (fun (mile : ℕ) => if ((q : α)) < (mile : α) then (q : α) - ((⌊(q : α)⌋ : ℤ) : α) else 1) =
      List.replicate (n - 1) 1 ++ [(q : α) - ((⌊(q : α)⌋ : ℤ) : α)] := by
  obtain ⟨k, rfl⟩ : ∃ k, n = k + 1 := ⟨n - 1, (Nat.succ_pred_eq_of_pos hn).symm⟩
  rw [List.range'_concat, List.map_append]
  simp only [Nat.add_sub_cancel] at hmid ⊢
  congr 1
  · rw [List.eq_replicate_iff]
    refine ⟨by simp, ?_⟩
    intro b hb
    rw [List.mem_map] at hb
    obtain ⟨mile, hmem, rfl⟩ := hb
    rw [List.mem_range'] at hmem
    have hle : (mile : ℚ) ≤ q := by
      calc (mile : ℚ) ≤ (k : ℚ) := by exact_mod_cast Nat.le_of_lt_succ (by omega)
      _ ≤ q := hmid
    rw [if_neg]
    rw [not_lt]
    calc (mile : α) = ((mile : ℚ) : α) := (Rat.cast_natCast mile).symm
    _ ≤ ((q : ℚ) : α) := by exact_mod_cast hle
  · simp only [List.map_cons, List.map_nil, one_mul]
    rw [if_pos]
    have heq : ((1 + k : ℕ) : ℚ) = ((k + 1 : ℕ) : ℚ) := by push_cast; ring
    have hq : q < ((1 + k : ℕ) : ℚ) := by rw [heq]; exact_mod_cast hlast
    calc ((q : α)) = ((q : ℚ) : α) := rfl
    _ < (((1 + k : ℕ) : ℚ) : α) := Rat.cast_lt.mpr hq
    _ = ((1 + k : ℕ) : α) := Rat.cast_natCast _

end SplitsLemmas

theorem race_miles_floor_lt : ∀ k : RaceKey,
    ((⌊(RACE_DISTANCES k).miles⌋ : ℤ) : ℚ) < (RACE_DISTANCES k).miles := by
  intro k; cases k <;> decide

theorem race_miles_ceil_facts : ∀ k : RaceKey,
    1 ≤ (⌈(RACE_DISTANCES k).miles⌉).toNat ∧
    (((⌈(RACE_DISTANCES k).miles⌉).toNat - 1 : ℕ) : ℚ) ≤ (RACE_DISTANCES k).miles ∧
    (RACE_DISTANCES k).miles < (((⌈(RACE_DISTANCES k).miles⌉).toNat : ℕ) : ℚ) := by
  intro k; cases k <;> refine ⟨by decide, by decide, by decide⟩

/-- C2 (amended): for every goal race key and all pacing values,
`generateSplits` returns exactly `ceil(distance)` segments whose 1-based mile
ordinals are `1, 2, …, ceil(distance)`, every non-final segment has distance 1
and the final segment the fractional remainder of the distance; and the
cumulative times are strictly increasing provided the constant start pace
`sustainablePace + pacingAdjustment` is positive (the amendment: with a
non-positive start pace every split time is non-positive, see the
counterexample, so the monotonicity clause needs this hypothesis). -/
theorem C2_generateSplits_structure {α : Type*} [LinearOrderedField α] [FloorRing α]
    (key : RaceKey) (sustainablePace pacingAdjustment : α) :
    (generateSplits key sustainablePace pacingAdjustment).length =
      (⌈(RACE_DISTANCES key).miles⌉).toNat ∧
    (generateSplits key sustainablePace pacingAdjustment).map Split.mile =
      List.range' 1 (⌈(RACE_DISTANCES key).miles⌉).toNat ∧
    (generateSplits key sustainablePace pacingAdjustment).map Split.distance =
      List.replicate ((⌈(RACE_DISTANCES key).miles⌉).toNat - 1) 1 ++
        [((RACE_DISTANCES key).miles : α) - ((⌊(RACE_DISTANCES key).miles⌋ : ℤ) : α)] ∧
    (0 < sustainablePace + pacingAdjustment →
      List.Chain' (fun x y => x < y)
        ((generateSplits key sustainablePace pacingAdjustment).map fun s => s.cumulativeTime)) := by
  have hceil : ⌈(((RACE_DISTANCES key).miles : ℚ) : α)⌉ = ⌈(RACE_DISTANCES key).miles⌉ :=
    Rat.ceil_cast _
  have hfloor : ⌊(((RACE_DISTANCES key).miles : ℚ) : α)⌋ = ⌊(RACE_DISTANCES key).miles⌋ :=
    Rat.floor_cast _
  simp only [generateSplits, hceil]
  obtain ⟨hn1, hmid, hlast⟩ := race_miles_ceil_facts key
  refine ⟨?_, ?_, ?_, ?_⟩
  · rw [← List.length_map (splitsGo _ _ _ _ _ _) Split.mile, splitsGo_map_mile,
      List.length_range']
  · exact splitsGo_map_mile _ _ _ _ _ _
  · rw [splitsGo_map_distance]
    rw [@map_mileDistance_eval α _ _ ((RACE_DISTANCES key).miles)
      ((⌈(RACE_DISTANCES key).miles⌉).toNat) hn1 hmid hlast]
    rw [hfloor]
  · intro hpos
    refine (splitsGo_chain _ _ _ _ _ ?_ 0).tail
    intro mile hm
    refine mul_pos (add_pos_of_pos_of_nonneg hpos (calculateFadeAdjustment_nonneg _ _)) ?_
    split_ifs
    · rw [hfloor, sub_pos]
      have hq := race_miles_floor_lt key
      calc ((⌊(RACE_DISTANCES key).miles⌋ : ℤ) : α)
          = (((⌊(RACE_DISTANCES key).miles⌋ : ℤ) : ℚ) : α) := (Rat.cast_intCast _).symm
      _ < (((RACE_DISTANCES key).miles : ℚ) : α) := Rat.cast_lt.mpr hq
    · exact one_pos

/-- Counterexample to C2 as stated: with sustainable pace 0 and pacing
adjustment 0 (both perfectly good reals), every split time of the 5k schedule
is 0, so the cumulative times are [0,0,0,0] — not strictly increasing. -/
theorem C2_generateSplits_counterexample :
    (generateSplits RaceKey.fivek (0 : ℚ) 0).map (fun s => s.cumulativeTime) = [0, 0, 0, 0] ∧
    ¬ List.Chain' (fun x y => x < y)
      ((generateSplits RaceKey.fivek (0 : ℚ) 0).map fun s => s.cumulativeTime) := by
  constructor <;>
    norm_num [generateSplits, splitsGo, calculateFadeAdjustment, RACE_DISTANCES, FADE_MODEL]

/-- Witness for C2 (amended), at a 8:00/mile sustainable pace for the 5k with
adjustment 0: four segments and strictly increasing cumulative time. -/
theorem C2_generateSplits_structure_witness :
    ((0 : ℚ) < 480 + 0) ∧
    (generateSplits RaceKey.fivek (480 : ℚ) 0).length = 4 ∧
    List.Chain' (fun x y => x < y)
      ((generateSplits RaceKey.fivek (480 : ℚ) 0).map fun s => s.cumulativeTime) :=
  ⟨by simp,
    (C2_generateSplits_structure RaceKey.fivek (480 : ℚ) 0).1.trans (by decide),
    (C2_generateSplits_structure RaceKey.fivek (480 : ℚ) 0).2.2.2 (by simp)⟩

/-- C3: the end-to-end projection for a 3:30:00 marathon goal off a 1:40:00
half, with pacing adjustment 0, classifies the risk as conservative and sets
`timeDelta = projectedFinishTime - 12600`; with pacing adjustment -20 the risk
tier is one of moderate/high/very-high. -/
theorem C3_calculateProjection_end_to_end :
    (calculateProjection ⟨.marathon, 12600, .half, 6000, 0⟩).fadeRisk.level = .conservative ∧
    (calculateProjection ⟨.marathon, 12600, .half, 6000, 0⟩).timeDelta =
      (calculateProjection ⟨.marathon, 12600, .half, 6000, 0⟩).projectedFinishTime - 12600 ∧
    (calculateProjection ⟨.marathon, 12600, .half, 6000, (-20)⟩).fadeRisk.level ∈
      [RiskLevel.moderate, RiskLevel.high, RiskLevel.veryHigh] := by
  have hs : ∀ a : ℝ, (calculateProjection ⟨.marathon, 12600, .half, 6000, a⟩).fadeRisk =
      assessFadeRisk (calculateSustainablePace .half 6000 .marathon -
        (calculateSustainablePace .half 6000 .marathon + a)) := fun a => rfl
  refine ⟨?_, rfl, ?_⟩
  · rw [hs]
    have h0 : calculateSustainablePace .half 6000 .marathon -
        (calculateSustainablePace .half 6000 .marathon + 0) = 0 := by ring
    rw [h0]
    simp [assessFadeRisk]
  · rw [hs]
    have h20 : calculateSustainablePace .half 6000 .marathon -
        (calculateSustainablePace .half 6000 .marathon + (-20)) = 20 := by ring
    rw [h20]
    have hlvl : (assessFadeRisk (20 : ℝ)).level = .high := by
      rw [assessFadeRisk]
      rw [if_neg (by norm_num), if_neg (by rw [risk_casts.1]; norm_num),
        if_neg (by rw [risk_casts.2.1]; norm_num), if_pos (by rw [risk_casts.2.2]; norm_num)]
    rw [hlvl]
    simp

theorem race_miles_lt_ceil : ∀ k : RaceKey,
    (RACE_DISTANCES k).miles < ((⌈(RACE_DISTANCES k).miles⌉ : ℤ) : ℚ) := by
  intro k; cases k <;> decide

theorem race_ceil_toNat_cast : ∀ k : RaceKey,
    (((⌈(RACE_DISTANCES k).miles⌉).toNat : ℕ) : ℚ) = ((⌈(RACE_DISTANCES k).miles⌉ : ℤ) : ℚ) := by
  intro k; cases k <;> decide

/-- C8: for every race key the final loop iteration of `generateSplits`
evaluates the fade model at `raceFraction = ceil(distance)/distance`, which is
strictly greater than 1 (all four canonical distances are non-integer), with a
rescaled progress `(f - 0.5)/(1 - 0.5)` strictly greater than 1; and for a
positive deviation `calculateFadeAdjustment` still applies its clamped formula
at that out-of-domain fraction, which is what the last generated segment's
`fadeAdjustment` records. -/
theorem C8_final_fraction_out_of_domain (key : RaceKey) :
    1 < ((⌈(RACE_DISTANCES key).miles⌉ : ℤ) : ℚ) / (RACE_DISTANCES key).miles ∧
    1 < (((⌈(RACE_DISTANCES key).miles⌉ : ℤ) : ℚ) / (RACE_DISTANCES key).miles - 0.5) /
        (1 - 0.5) ∧
    (∀ d : ℚ, 0 < d →
      calculateFadeAdjustment d
          (((⌈(RACE_DISTANCES key).miles⌉ : ℤ) : ℚ) / (RACE_DISTANCES key).miles) =
        min (((((⌈(RACE_DISTANCES key).miles⌉ : ℤ) : ℚ) / (RACE_DISTANCES key).miles - 0.5) /
            (1 - 0.5)) ^ 2 * 1.5 * d) 30) ∧
    (∀ pace adj : ℚ,
      ((generateSplits key pace adj).map Split.fadeAdjustment).getLast? =
        some (calculateFadeAdjustment (-adj)
          (((⌈(RACE_DISTANCES key).miles⌉ : ℤ) : ℚ) / (RACE_DISTANCES key).miles))) := by
  have hpos := race_miles_pos key
  have hf : 1 < ((⌈(RACE_DISTANCES key).miles⌉ : ℤ) : ℚ) / (RACE_DISTANCES key).miles := by
    rw [lt_div_iff₀ hpos, one_mul]
    exact race_miles_lt_ceil key
  refine ⟨hf, by norm_num; linarith, ?_, ?_⟩
  · intro d hd
    simp only [calculateFadeAdjustment, fadeOnset_cast, aggression_cast, maxFade_cast,
      gt_iff_lt]
    rw [if_neg (not_le.mpr hd), if_pos (by linarith)]
  · intro pace adj
    simp only [generateSplits, Rat.cast_id]
    rw [splitsGo_map_fade]
    obtain ⟨k, hk⟩ : ∃ k, (⌈(RACE_DISTANCES key).miles⌉).toNat = k + 1 :=
      ⟨_, (Nat.succ_pred_eq_of_pos (race_miles_ceil_facts key).1).symm⟩
    rw [hk, List.range'_concat, List.map_append]
    simp only [List.map_cons, List.map_nil, one_mul]
    rw [List.getLast?_concat]
    have hcast : ((1 + k : ℕ) : ℚ) = ((⌈(RACE_DISTANCES key).miles⌉ : ℤ) : ℚ) := by
      rw [← race_ceil_toNat_cast key, hk]
      push_cast
      ring
    rw [hcast]

/-- Witness for C8: at deviation 10 on the 5k, the final fraction's fade
penalty is given by the clamped formula. -/
theorem C8_final_fraction_out_of_domain_witness :
    (0 : ℚ) < 10 ∧
    calculateFadeAdjustment (10 : ℚ)
        (((⌈(RACE_DISTANCES RaceKey.fivek).miles⌉ : ℤ) : ℚ) /
          (RACE_DISTANCES RaceKey.fivek).miles) =
      min (((((⌈(RACE_DISTANCES RaceKey.fivek).miles⌉ : ℤ) : ℚ) /
            (RACE_DISTANCES RaceKey.fivek).miles - 0.5) / (1 - 0.5)) ^ 2 * 1.5 * 10) 30 :=
  ⟨by decide, (C8_final_fraction_out_of_domain RaceKey.fivek).2.2.1 10 (by decide)⟩

/-- C10: at `totalSeconds = 59.6` (written `596/10`) the modulo-60 remainder
rounds to 60 but is not carried into the minutes, so `secondsToTime` renders
the string "0:60"; `formatPace` behaves the same way. -/
theorem C10_rounded_seconds_sixty :
    secondsToTime (Rat.divInt 596 10) = String.data "0:60" ∧
    formatPace (Rat.divInt 596 10) = String.data "0:60" := by
  have hq : Rat.divInt 596 10 = (596 : ℚ) / 10 := by
    rw [Rat.divInt_eq_div]; norm_num
  have hnn : ¬ ((596 : ℚ) / 10 / 3600 < 0) := by norm_num
  have hnn60 : ¬ ((596 : ℚ) / 10 / 60 < 0) := by norm_num
  have hf3600 : (⌊(596 : ℚ) / 10 / 3600⌋ : ℤ) = 0 := by
    rw [Int.floor_eq_iff]
    norm_num
  have hf60 : (⌊(596 : ℚ) / 10 / 60⌋ : ℤ) = 0 := by
    rw [Int.floor_eq_iff]
    norm_num
  have hmod3600 : jsMod ((596 : ℚ) / 10) 3600 = (596 : ℚ) / 10 := by
    rw [jsMod, jsTrunc, if_neg hnn, hf3600]
    norm_num
  have hmod60 : jsMod ((596 : ℚ) / 10) 60 = (596 : ℚ) / 10 := by
    rw [jsMod, jsTrunc, if_neg hnn60, hf60]
    norm_num
  have hround : round ((596 : ℚ) / 10) = 60 := by
    rw [round_eq, Int.floor_eq_iff]
    norm_num
  have i0 : intRepr 0 = ['0'] := by simp [intRepr, natToDigits, Nat.digitChar]
  have i60 : intRepr 60 = ['6', '0'] := by simp [intRepr, natToDigits, Nat.digitChar]
  constructor
  · rw [hq]
    simp only [secondsToTime, hmod3600, hmod60, hf3600, hf60, hround, i0, i60]
    rw [if_neg (by norm_num)]
    simp [padStart2]
  · rw [hq]
    simp only [formatPace, hmod60, hf60, hround, i0, i60]
    simp [padStart2]

theorem digitChar_facts : ∀ d, d < 10 →
    (Nat.digitChar d).isDigit = true ∧ (Nat.digitChar d == ':') = false ∧
    (Nat.digitChar d).isWhitespace = false ∧ ((Nat.digitChar d).toNat : ℤ) - 48 = (d : ℤ) := by
  decide

theorem natToDigits_props (n : ℕ) :
    natToDigits n ≠ [] ∧ ∀ c ∈ natToDigits n, ∃ d, d < 10 ∧ c = Nat.digitChar d := by
  induction n using Nat.strong_induction_on with
  | _ n ih =>
    rw [natToDigits]
    split_ifs with h
    · exact ⟨by simp, by simp; exact ⟨n, h, rfl⟩⟩
    · constructor
      · simp
      · intro c hc
        rw [List.mem_append] at hc
        rcases hc with hc | hc
        · exact (ih (n / 10) (Nat.div_lt_self (by omega) (by omega))).2 c hc
        · rw [List.mem_singleton] at hc
          exact ⟨n % 10, Nat.mod_lt n (by omega), hc⟩

theorem foldl_natToDigits (n : ℕ) : ∀ a : ℤ,
    (natToDigits n).foldl (fun acc c => 10 * acc + ((c.toNat : ℤ) - 48)) a =
      a * 10 ^ (natToDigits n).length + n := by
  induction n using Nat.strong_induction_on with
  | _ n ih =>
    intro a
    rw [natToDigits]
    split_ifs with h
    · simp only [List.foldl_cons, List.foldl_nil, List.length_singleton, pow_one]
      rw [(digitChar_facts n h).2.2.2]
      ring
    · rw [List.foldl_append, ih (n / 10) (Nat.div_lt_self (by omega) (by omega))]
      simp only [List.foldl_cons, List.foldl_nil, List.length_append,
        List.length_singleton]
      rw [(digitChar_facts (n % 10) (Nat.mod_lt n (by omega))).2.2.2]
      have hdm : (10 : ℤ) * ((n / 10 : ℕ) : ℤ) + ((n % 10 : ℕ) : ℤ) = (n : ℤ) := by
        omega
      rw [mul_add, mul_comm (10 : ℤ) ((n / 10 : ℕ) : ℤ)]
      push_cast
      push_cast at hdm
      rw [pow_succ]
      ring_nf
      ring_nf at hdm
      linarith [hdm]



theorem natToDigits_all_digit (n : ℕ) :
    (natToDigits n).all (fun c => c.isDigit) = true := by
  rw [List.all_eq_true]
  intro c hc
  obtain ⟨d, hd, rfl⟩ := (natToDigits_props n).2 c hc
  exact (digitChar_facts d hd).1

theorem jsNumber_natToDigits (n : ℕ) : jsNumber (natToDigits n) = some (n : ℤ) := by
  rw [jsNumber, if_pos (natToDigits_all_digit n), foldl_natToDigits n 0]
  simp

theorem padStart2_all_digit (l : List Char) (h : l.all (fun c => c.isDigit) = true) :
    (padStart2 l).all (fun c => c.isDigit) = true := by
  rw [padStart2, List.all_append, h, Bool.and_true, List.all_eq_true]
  intro c hc
  rw [List.eq_of_mem_replicate hc]
  decide

theorem foldl_zeros (k : ℕ) (l : List Char) :
    (List.replicate k '0' ++ l).foldl (fun acc c => 10 * acc + ((c.toNat : ℤ) - 48)) 0 =
      l.foldl (fun acc c => 10 * acc + ((c.toNat : ℤ) - 48)) 0 := by
  induction k with
  | zero => rfl
  | succ k ih =>
      rw [List.replicate_succ, List.cons_append, List.foldl_cons]
      have h0 : (10 : ℤ) * 0 + ((('0' : Char).toNat : ℤ) - 48) = 0 := by decide
      rw [h0]
      exact ih

theorem jsNumber_padStart2_natToDigits (n : ℕ) :
    jsNumber (padStart2 (natToDigits n)) = some (n : ℤ) := by
  rw [jsNumber, if_pos (padStart2_all_digit _ (natToDigits_all_digit n))]
  rw [padStart2, foldl_zeros, foldl_natToDigits n 0]
  simp

theorem splitOnColon_no_colon (l : List Char) (h : (':' : Char) ∉ l) :
    splitOnColon l = [l] := by
  induction l with
  | nil => rfl
  | cons c rest ih =>
      rw [splitOnColon]
      rw [if_neg (by intro hc; exact h (hc ▸ List.mem_cons_self c rest))]
      rw [ih (fun hm => h (List.mem_cons_of_mem c hm))]

theorem splitOnColon_two (a b : List Char) (ha : (':' : Char) ∉ a) (hb : (':' : Char) ∉ b) :
    splitOnColon (a ++ ':' :: b) = [a, b] := by
  induction a with
  | nil =>
      rw [List.nil_append, splitOnColon, if_pos rfl, splitOnColon_no_colon b hb]
  | cons c rest ih =>
      rw [List.cons_append, splitOnColon]
      rw [if_neg (by intro hc; exact ha (hc ▸ List.mem_cons_self c rest))]
      rw [ih (fun hm => ha (List.mem_cons_of_mem c hm))]

theorem dropWhile_eq_self_of_all (p : Char → Bool) (l : List Char)
    (h : ∀ c ∈ l, p c = false) : l.dropWhile p = l := by
  cases l with
  | nil => rfl
  | cons c rest =>
      rw [List.dropWhile_cons, h c (List.mem_cons_self c rest)]
      simp

theorem jsTrim_eq_self (l : List Char) (h : ∀ c ∈ l, c.isWhitespace = false) :
    jsTrim l = l := by
  have h2 : ∀ c ∈ l, isJsWhitespace c = false := fun c hc => by
    rw [isJsWhitespace]; exact h c hc
  rw [jsTrim, dropWhile_eq_self_of_all _ _ h2]
  rw [dropWhile_eq_self_of_all _ _ (fun c hc => h2 c (List.mem_reverse.mp hc))]
  exact List.reverse_reverse l



theorem digitChar_ne_colon {c : Char} (h : ∃ d, d < 10 ∧ c = Nat.digitChar d) : c ≠ ':' := by
  obtain ⟨d, hd, rfl⟩ := h
  have := (digitChar_facts d hd).2.1
  intro hc
  rw [hc] at this
  simp at this

theorem validateTimeString_two_field (m ss : ℕ) (hss : ss < 60) (hnz : ¬ (m = 0 ∧ ss = 0)) :
    validateTimeString (natToDigits m ++ ':' :: padStart2 (natToDigits ss)) =
      .valid ((m : ℤ) * 60 + (ss : ℤ)) := by
  set A := natToDigits m with hA
  set B := padStart2 (natToDigits ss) with hB
  have hmemA : ∀ c ∈ A, ∃ d, d < 10 ∧ c = Nat.digitChar d := (natToDigits_props m).2
  have hmemB : ∀ c ∈ B, c = '0' ∨ ∃ d, d < 10 ∧ c = Nat.digitChar d := by
    intro c hc
    rw [hB, padStart2, List.mem_append] at hc
    rcases hc with hc | hc
    · exact Or.inl (List.eq_of_mem_replicate hc)
    · exact Or.inr ((natToDigits_props ss).2 c hc)
  have hdigitA : ∀ c ∈ A, c.isDigit = true := by
    intro c hc; obtain ⟨d, hd, rfl⟩ := hmemA c hc; exact (digitChar_facts d hd).1
  have hdigitB : ∀ c ∈ B, c.isDigit = true := by
    intro c hc
    rcases hmemB c hc with rfl | ⟨d, hd, rfl⟩
    · decide
    · exact (digitChar_facts d hd).1
  have hwsText : ∀ c ∈ A ++ ':' :: B, c.isWhitespace = false := by
    intro c hc
    rw [List.mem_append, List.mem_cons] at hc
    rcases hc with hc | rfl | hc
    · rcases hmemA c hc with ⟨d, hd, rfl⟩; exact (digitChar_facts d hd).2.2.1
    · decide
    · rcases hmemB c hc with rfl | ⟨d, hd, rfl⟩
      · decide
      · exact (digitChar_facts d hd).2.2.1
  have hcolA : (':' : Char) ∉ A := fun hc => digitChar_ne_colon (hmemA _ hc) rfl
  have hcolB : (':' : Char) ∉ B := by
    intro hc
    rcases hmemB _ hc with hc0 | hd
    · exact absurd hc0.symm (by decide)
    · exact digitChar_ne_colon hd rfl
  have htrim : jsTrim (A ++ ':' :: B) = A ++ ':' :: B := jsTrim_eq_self _ hwsText
  have hall : (A ++ ':' :: B).all (fun c => c.isDigit || c == ':') = true := by
    rw [List.all_eq_true]
    intro c hc
    rw [List.mem_append, List.mem_cons] at hc
    rcases hc with hc | rfl | hc
    · rw [hdigitA c hc]; rfl
    · decide
    · rw [hdigitB c hc]; rfl
  have hsplit : splitOnColon (A ++ ':' :: B) = [A, B] := splitOnColon_two A B hcolA hcolB
  have hne : A ++ ':' :: B ≠ [] := by simp
  have hnumA : jsNumber A = some ((m : ℕ) : ℤ) := jsNumber_natToDigits m
  have hnumB : jsNumber B = some ((ss : ℕ) : ℤ) := jsNumber_padStart2_natToDigits ss
  simp only [validateTimeString, htrim, hall, hsplit, hne, List.length_cons,
    List.length_nil, List.map_cons, List.map_nil, hnumA, hnumB]
  norm_num
  rw [if_neg (by omega), if_neg (by omega), if_neg hnz]



theorem floor_natCast_div_natCast (x b : ℕ) :
    ⌊((x : ℚ)) / ((b : ℕ) : ℚ)⌋ = ((x / b : ℕ) : ℤ) := by
  have h := Rat.floor_intCast_div_natCast (x : ℤ) b
  have e1 : (((x : ℤ)) : ℚ) = (x : ℚ) := by push_cast; rfl
  rw [e1] at h
  rw [h]
  omega

theorem jsMod_natCast (x b : ℕ) :
    jsMod ((x : ℚ)) (((b : ℕ)) : ℚ) = ((x % b : ℕ) : ℚ) := by
  have hnn : ¬ ((x : ℚ) / ((b : ℕ) : ℚ) < 0) := not_lt.mpr (by positivity)
  rw [jsMod, jsTrunc, if_neg hnn, floor_natCast_div_natCast]
  have e : ((((x / b : ℕ) : ℤ)) : ℚ) = ((x / b : ℕ) : ℚ) := by push_cast; rfl
  rw [e]
  have hq : ((x : ℕ) : ℚ) = (b : ℚ) * ((x / b : ℕ) : ℚ) + ((x % b : ℕ) : ℚ) := by
    exact_mod_cast congrArg (Nat.cast : ℕ → ℚ) (Nat.div_add_mod x b).symm
  linarith

theorem intRepr_natCast (n : ℕ) : intRepr ((n : ℕ) : ℤ) = natToDigits n := by
  rw [intRepr, if_neg (by omega)]
  simp

theorem formatPace_two_field (m ss : ℕ) (hss : ss < 60) :
    formatPace (((m * 60 + ss : ℕ) : ℚ)) =
      natToDigits m ++ ':' :: padStart2 (natToDigits ss) := by
  have h60 : ((60 : ℚ)) = (((60 : ℕ)) : ℚ) := by norm_num
  have hdivval : (m * 60 + ss) / 60 = m := by omega
  have hmodval : (m * 60 + ss) % 60 = ss := by omega
  simp only [formatPace, h60, jsMod_natCast, floor_natCast_div_natCast, hdivval, hmodval,
    round_natCast, intRepr_natCast]

theorem secondsToTime_two_field (m ss : ℕ) (hss : ss < 60) (hm : m < 60) :
    secondsToTime (((m * 60 + ss : ℕ) : ℚ)) =
      natToDigits m ++ ':' :: padStart2 (natToDigits ss) := by
  have h60 : ((60 : ℚ)) = (((60 : ℕ)) : ℚ) := by norm_num
  have h3600 : ((3600 : ℚ)) = (((3600 : ℕ)) : ℚ) := by norm_num
  have hdiv3600 : (m * 60 + ss) / 3600 = 0 := by omega
  have hmod3600 : (m * 60 + ss) % 3600 = m * 60 + ss := by omega
  have hdivval : (m * 60 + ss) / 60 = m := by omega
  have hmodval : (m * 60 + ss) % 60 = ss := by omega
  simp only [secondsToTime, h60, h3600, jsMod_natCast, floor_natCast_div_natCast,
    hdiv3600, hmod3600, hdivval, hmodval, round_natCast, intRepr_natCast]
  rw [if_neg (by norm_num)]

/-- C7: a canonical two-field time string M:SS (minutes rendered without
padding, seconds zero-padded to two digits, `0 ≤ SS < 60`, not both zero)
parses with `validateTimeString` to `M*60 + SS` seconds, and re-formatting
those seconds yields the same displayed text: always via `formatPace`, and via
`secondsToTime` whenever the value is below one hour (above it,
`secondsToTime` switches to the `H:MM:SS` format, the one allowed exception). -/
theorem C7_two_field_roundtrip (m ss : ℕ) (hss : ss < 60) (hnz : ¬ (m = 0 ∧ ss = 0)) :
    validateTimeString (natToDigits m ++ ':' :: padStart2 (natToDigits ss)) =
      .valid ((m : ℤ) * 60 + (ss : ℤ)) ∧
    formatPace (((m * 60 + ss : ℕ) : ℚ)) =
      natToDigits m ++ ':' :: padStart2 (natToDigits ss) ∧
    (m < 60 → secondsToTime (((m * 60 + ss : ℕ) : ℚ)) =
      natToDigits m ++ ':' :: padStart2 (natToDigits ss)) :=
  ⟨validateTimeString_two_field m ss hss hnz, formatPace_two_field m ss hss,
    fun hm => secondsToTime_two_field m ss hss hm⟩

/-- Witness for C7 at "5:30": parses to 330 seconds and formats back. -/
theorem C7_two_field_roundtrip_witness :
    (5 < 60 ∧ 30 < 60 ∧ ¬ (5 = 0 ∧ 30 = 0)) ∧
    validateTimeString (natToDigits 5 ++ ':' :: padStart2 (natToDigits 30)) =
      .valid ((5 : ℤ) * 60 + (30 : ℤ)) ∧
    formatPace (((5 * 60 + 30 : ℕ) : ℚ)) =
      natToDigits 5 ++ ':' :: padStart2 (natToDigits 30) ∧
    secondsToTime (((5 * 60 + 30 : ℕ) : ℚ)) =
      natToDigits 5 ++ ':' :: padStart2 (natToDigits 30) :=
  ⟨⟨by decide, by decide, by decide⟩,
    (C7_two_field_roundtrip 5 30 (by decide) (by decide)).1,
    (C7_two_field_roundtrip 5 30 (by decide) (by decide)).2.1,
    (C7_two_field_roundtrip 5 30 (by decide) (by decide)).2.2 (by decide)⟩

theorem splitOnColon_ne_nil (t : List Char) : splitOnColon t ≠ [] := by
  cases t with
  | nil => simp [splitOnColon]
  | cons c rest =>
      rw [splitOnColon]
      split_ifs
      · simp
      · cases h : splitOnColon rest <;> simp

theorem splitOnColon_chars (t : List Char) :
    ∀ p ∈ splitOnColon t, ∀ c ∈ p, c ∈ t ∧ c ≠ ':' := by
  induction t with
  | nil =>
      intro p hp c hc
      simp [splitOnColon] at hp
      subst hp
      simp at hc
  | cons a rest ih =>
      intro p hp c hc
      rw [splitOnColon] at hp
      split_ifs at hp with ha
      · rcases List.mem_cons.mp hp with rfl | hp
        · simp at hc
        · obtain ⟨hct, hcc⟩ := ih p hp c hc
          exact ⟨List.mem_cons_of_mem a hct, hcc⟩
      · rcases hsp : splitOnColon rest with _ | ⟨g, gs⟩
        · rw [hsp] at hp
          rcases List.mem_singleton.mp hp with rfl
          rcases List.mem_singleton.mp hc with rfl
          exact ⟨List.mem_cons_self _ rest, ha⟩
        · rw [hsp] at hp
          rcases List.mem_cons.mp hp with rfl | hp
          · rcases List.mem_cons.mp hc with rfl | hcg
            · exact ⟨List.mem_cons_self _ rest, ha⟩
            · obtain ⟨hct, hcc⟩ := ih g (hsp ▸ List.mem_cons_self g gs) c hcg
              exact ⟨List.mem_cons_of_mem a hct, hcc⟩
          · obtain ⟨hct, hcc⟩ := ih p (hsp ▸ List.mem_cons_of_mem g hp) c hc
            exact ⟨List.mem_cons_of_mem a hct, hcc⟩

theorem digit_toNat_ge (c : Char) (h : c.isDigit = true) : 48 ≤ c.toNat := by
  rw [Char.isDigit] at h
  rw [Bool.and_eq_true] at h
  have h1 := h.1
  rw [decide_eq_true_eq] at h1
  exact h1

theorem foldl_digits_nonneg (l : List Char) (hd : ∀ c ∈ l, c.isDigit = true) :
    ∀ a : ℤ, 0 ≤ a → 0 ≤ l.foldl (fun acc c => 10 * acc + ((c.toNat : ℤ) - 48)) a := by
  induction l with
  | nil => intro a ha; exact ha
  | cons c rest ih =>
      intro a ha
      rw [List.foldl_cons]
      refine ih (fun x hx => hd x (List.mem_cons_of_mem c hx)) _ ?_
      have h48 := digit_toNat_ge c (hd c (List.mem_cons_self c rest))
      have : (48 : ℤ) ≤ (c.toNat : ℤ) := by exact_mod_cast h48
      linarith

theorem jsNumber_of_digits (p : List Char) (hd : ∀ c ∈ p, c.isDigit = true) :
    ∃ n : ℤ, jsNumber p = some n ∧ 0 ≤ n := by
  rw [jsNumber, if_pos (List.all_eq_true.mpr (fun c hc => hd c hc))]
  exact ⟨_, rfl, foldl_digits_nonneg p hd 0 le_rfl⟩



theorem parts_digits (t : List Char) (h2 : t.all (fun c => c.isDigit || c == ':') = true) :
    ∀ p ∈ splitOnColon t, ∀ c ∈ p, c.isDigit = true := by
  intro p hp c hc
  obtain ⟨hct, hcc⟩ := splitOnColon_chars t p hp c hc
  have hall := List.all_eq_true.mp h2 c hct
  rw [Bool.or_eq_true] at hall
  rcases hall with h | h
  · exact h
  · exact absurd (beq_iff_eq.mp h) hcc

theorem validateTimeString_cases (s : List Char) :
    (jsTrim s = [] ∧ validateTimeString s = .invalid "Enter a time") ∨
    (jsTrim s ≠ [] ∧ ¬ ((jsTrim s).all (fun c => c.isDigit || c == ':') = true) ∧
      validateTimeString s = .invalid "Use format M:SS or H:MM:SS") ∨
    (jsTrim s ≠ [] ∧ ((jsTrim s).all (fun c => c.isDigit || c == ':') = true) ∧
      ((splitOnColon (jsTrim s)).length < 2 ∨ (splitOnColon (jsTrim s)).length > 3) ∧
      validateTimeString s = .invalid "Use format M:SS or H:MM:SS") ∨
    (∃ na nb : ℤ, jsTrim s ≠ [] ∧ ((jsTrim s).all (fun c => c.isDigit || c == ':') = true) ∧
      (splitOnColon (jsTrim s)).length = 2 ∧
      (∀ p ∈ splitOnColon (jsTrim s), ∃ n : ℤ, jsNumber p = some n ∧ 0 ≤ n) ∧
      timeFields s = (0, na, nb) ∧ 0 ≤ na ∧ 0 ≤ nb ∧
      validateTimeString s =
        (if 60 ≤ nb then .invalid "Seconds must be 0-59"
         else if na = 0 ∧ nb = 0 then .invalid "Time must be greater than 0"
         else .valid (na * 60 + nb))) ∨
    (∃ nh na nb : ℤ, jsTrim s ≠ [] ∧ ((jsTrim s).all (fun c => c.isDigit || c == ':') = true) ∧
      (splitOnColon (jsTrim s)).length = 3 ∧
      (∀ p ∈ splitOnColon (jsTrim s), ∃ n : ℤ, jsNumber p = some n ∧ 0 ≤ n) ∧
      timeFields s = (nh, na, nb) ∧ 0 ≤ nh ∧ 0 ≤ na ∧ 0 ≤ nb ∧
      validateTimeString s =
        (if 60 ≤ na then .invalid "Minutes must be 0-59"
         else if 60 ≤ nb then .invalid "Seconds must be 0-59"
         else if nh = 0 ∧ na = 0 ∧ nb = 0 then .invalid "Time must be greater than 0"
         else .valid (nh * 3600 + na * 60 + nb))) := by
  by_cases h1 : jsTrim s = []
  · refine Or.inl ⟨h1, ?_⟩
    rw [validateTimeString, if_pos h1]
  by_cases h2 : (jsTrim s).all (fun c => c.isDigit || c == ':') = true
  case neg =>
    refine Or.inr (Or.inl ⟨h1, h2, ?_⟩)
    rw [validateTimeString, if_neg h1, if_pos h2]
  have hdig := parts_digits (jsTrim s) h2
  have hnum : ∀ p ∈ splitOnColon (jsTrim s), ∃ n : ℤ, jsNumber p = some n ∧ 0 ≤ n :=
    fun p hp => jsNumber_of_digits p (hdig p hp)
  by_cases hl2 : (splitOnColon (jsTrim s)).length = 2
  · obtain ⟨a, b, hab⟩ := List.length_eq_two.mp hl2
    obtain ⟨na, hna, hna0⟩ := hnum a (by rw [hab]; exact List.mem_cons_self _ _)
    obtain ⟨nb, hnb, hnb0⟩ := hnum b (by rw [hab]; simp)
    refine Or.inr (Or.inr (Or.inr (Or.inl ⟨na, nb, h1, h2, hl2, hnum, ?_, hna0, hnb0, ?_⟩)))
    · rw [timeFields, hab]
      simp only [List.map_cons, List.map_nil, hna, hnb, Option.getD_some]
    · rw [validateTimeString, if_neg h1, if_neg (by rw [h2]; simp), hab]
      rw [if_neg (by simp)]
      simp only [List.map_cons, List.map_nil, hna, hnb]
      rw [if_neg (by simp; omega)]
      rw [if_pos (by simp)]
      simp only [Option.getD_some]
  by_cases hl3 : (splitOnColon (jsTrim s)).length = 3
  · obtain ⟨a, b, c, habc⟩ := List.length_eq_three.mp hl3
    obtain ⟨nh, hnh, hnh0⟩ := hnum a (by rw [habc]; exact List.mem_cons_self _ _)
    obtain ⟨na, hna, hna0⟩ := hnum b (by rw [habc]; simp)
    obtain ⟨nb, hnb, hnb0⟩ := hnum c (by rw [habc]; simp)
    refine Or.inr (Or.inr (Or.inr (Or.inr ⟨nh, na, nb, h1, h2, hl3, hnum, ?_, hnh0, hna0, hnb0,
      ?_⟩)))
    · rw [timeFields, habc]
      simp only [List.map_cons, List.map_nil, hnh, hna, hnb, Option.getD_some]
    · rw [validateTimeString, if_neg h1, if_neg (by rw [h2]; simp), habc]
      rw [if_neg (by simp)]
      simp only [List.map_cons, List.map_nil, hnh, hna, hnb]
      rw [if_neg (by simp; omega)]
      rw [if_neg (by simp)]
      rw [if_pos (by simp)]
      simp only [Option.getD_some]
  · refine Or.inr (Or.inr (Or.inl ⟨h1, h2, by omega, ?_⟩))
    rw [validateTimeString, if_neg h1, if_neg (by rw [h2]; simp)]
    rw [if_pos (by omega)]



/-- C6 (amended): `validateTimeString` returns an invalid result exactly when
the whitespace-trimmed input is empty, contains a character other than a digit
or colon, splits into a field count outside two or three, has a non-numeric
field (none exists once the character check passed: an empty field coerces to
0), has a negative field (likewise impossible), has seconds at least 60, has
minutes at least 60 in the three-field form, or denotes an all-zero time;
otherwise it returns a valid result whose seconds are `h*3600 + m*60 + s`
with `h = 0` for two-field input.  Each of the spec's six reject categories
carries its fixed message, in cascade order.  (The amendment: the source trims
the input first, so the conditions apply to the trimmed string — see the
counterexample.) -/
theorem C6_validateTimeString_characterization (s : List Char) :
    ((∃ e, validateTimeString s = .invalid e) ↔
      (jsTrim s = [] ∨
        ¬ ((jsTrim s).all (fun c => c.isDigit || c == ':') = true) ∨
        (splitOnColon (jsTrim s)).length < 2 ∨
        (splitOnColon (jsTrim s)).length > 3 ∨
        (∃ p ∈ splitOnColon (jsTrim s), jsNumber p = none) ∨
        (∃ p ∈ splitOnColon (jsTrim s), ∃ n : ℤ, jsNumber p = some n ∧ n < 0) ∨
        60 ≤ (timeFields s).2.2 ∨
        ((splitOnColon (jsTrim s)).length = 3 ∧ 60 ≤ (timeFields s).2.1) ∨
        ((timeFields s).1 = 0 ∧ (timeFields s).2.1 = 0 ∧ (timeFields s).2.2 = 0))) ∧
    (∀ v, validateTimeString s = .valid v →
      v = (timeFields s).1 * 3600 + (timeFields s).2.1 * 60 + (timeFields s).2.2) ∧
    (jsTrim s = [] → validateTimeString s = .invalid "Enter a time") ∧
    (jsTrim s ≠ [] → ¬ ((jsTrim s).all (fun c => c.isDigit || c == ':') = true) →
      validateTimeString s = .invalid "Use format M:SS or H:MM:SS") ∧
    (jsTrim s ≠ [] → ((jsTrim s).all (fun c => c.isDigit || c == ':') = true) →
      ((splitOnColon (jsTrim s)).length < 2 ∨ (splitOnColon (jsTrim s)).length > 3) →
      validateTimeString s = .invalid "Use format M:SS or H:MM:SS") ∧
    (jsTrim s ≠ [] → ((jsTrim s).all (fun c => c.isDigit || c == ':') = true) →
      (splitOnColon (jsTrim s)).length = 2 → 60 ≤ (timeFields s).2.2 →
      validateTimeString s = .invalid "Seconds must be 0-59") ∧
    (jsTrim s ≠ [] → ((jsTrim s).all (fun c => c.isDigit || c == ':') = true) →
      (splitOnColon (jsTrim s)).length = 3 → 60 ≤ (timeFields s).2.1 →
      validateTimeString s = .invalid "Minutes must be 0-59") ∧
    (jsTrim s ≠ [] → ((jsTrim s).all (fun c => c.isDigit || c == ':') = true) →
      (splitOnColon (jsTrim s)).length = 3 → (timeFields s).2.1 < 60 →
      60 ≤ (timeFields s).2.2 →
      validateTimeString s = .invalid "Seconds must be 0-59") ∧
    (jsTrim s ≠ [] → ((jsTrim s).all (fun c => c.isDigit || c == ':') = true) →
      ((splitOnColon (jsTrim s)).length = 2 ∨ (splitOnColon (jsTrim s)).length = 3) →
      (timeFields s).2.1 < 60 → (timeFields s).2.2 < 60 →
      ((timeFields s).1 = 0 ∧ (timeFields s).2.1 = 0 ∧ (timeFields s).2.2 = 0) →
      validateTimeString s = .invalid "Time must be greater than 0") := by
  rcases validateTimeString_cases s with ⟨h1, hv⟩ | ⟨h1, h2, hv⟩ | ⟨h1, h2, hlen, hv⟩ |
    ⟨na, nb, h1, h2, hl2, hnum, htf, hna0, hnb0, hv⟩ |
    ⟨nh, na, nb, h1, h2, hl3, hnum, htf, hnh0, hna0, hnb0, hv⟩
  · refine ⟨iff_of_true ⟨_, hv⟩ (Or.inl h1), ?_, fun _ => hv, fun h1' _ => absurd h1 h1',
      fun h1' _ _ => absurd h1 h1', fun h1' _ _ _ => absurd h1 h1',
      fun h1' _ _ _ => absurd h1 h1', fun h1' _ _ _ _ => absurd h1 h1',
      fun h1' _ _ _ _ _ => absurd h1 h1'⟩
    intro v h
    rw [hv] at h
    exact absurd h (by simp)
  · refine ⟨iff_of_true ⟨_, hv⟩ (Or.inr (Or.inl h2)), ?_, fun h => absurd h h1,
      fun _ _ => hv, fun _ h2' _ => absurd h2' h2, fun _ h2' _ _ => absurd h2' h2,
      fun _ h2' _ _ => absurd h2' h2, fun _ h2' _ _ _ => absurd h2' h2,
      fun _ h2' _ _ _ _ => absurd h2' h2⟩
    intro v h
    rw [hv] at h
    exact absurd h (by simp)
  · refine ⟨iff_of_true ⟨_, hv⟩ ?_, ?_, fun h => absurd h h1, fun _ h2' => absurd h2 h2',
      fun _ _ _ => hv, fun _ _ hl _ => by omega, fun _ _ hl _ => by omega,
      fun _ _ hl _ _ => by omega, fun _ _ hl _ _ _ => by omega⟩
    · rcases hlen with h | h
      · exact Or.inr (Or.inr (Or.inl h))
      · exact Or.inr (Or.inr (Or.inr (Or.inl h)))
    · intro v h
      rw [hv] at h
      exact absurd h (by simp)
  · refine ⟨?_, ?_, fun h => absurd h h1, fun _ h2' => absurd h2 h2',
      fun _ _ hl => by omega, ?_, fun _ _ hl _ => by omega, fun _ _ hl _ _ => by omega, ?_⟩
    · rw [hv]
      simp only [htf]
      by_cases hsec : 60 ≤ nb
      · rw [if_pos hsec]
        refine iff_of_true ⟨_, rfl⟩ ?_
        exact Or.inr (Or.inr (Or.inr (Or.inr (Or.inr (Or.inr (Or.inl hsec))))))
      · rw [if_neg hsec]
        by_cases hzero : na = 0 ∧ nb = 0
        · rw [if_pos hzero]
          refine iff_of_true ⟨_, rfl⟩ ?_
          exact Or.inr (Or.inr (Or.inr (Or.inr (Or.inr (Or.inr (Or.inr
            (Or.inr ⟨by simp, hzero.1, hzero.2⟩)))))))
        · rw [if_neg hzero]
          refine iff_of_false (by simp) ?_
          rintro (h | h | h | h | ⟨p, hp, hnone⟩ | ⟨p, hp, n, hn, hneg⟩ | h | ⟨h3, _⟩ |
            ⟨_, hz1, hz2⟩)
          · exact h1 h
          · exact h h2
          · omega
          · omega
          · obtain ⟨n, hn', _⟩ := hnum p hp
            rw [hn'] at hnone
            exact absurd hnone (by simp)
          · obtain ⟨n', hn', hn0'⟩ := hnum p hp
            rw [hn'] at hn
            have : n' = n := by injection hn
            omega
          · omega
          · omega
          · exact hzero ⟨hz1, hz2⟩
    · intro v h
      rw [hv] at h
      simp only [htf]
      split_ifs at h <;> simp at h <;> omega
    · intro _ _ _ hsec
      simp only [htf] at hsec
      rw [hv, if_pos hsec]
    · intro _ _ _ hmin hsec hzero
      simp only [htf] at hsec hzero
      rw [hv, if_neg (by omega), if_pos ⟨hzero.2.1, hzero.2.2⟩]
  · refine ⟨?_, ?_, fun h => absurd h h1, fun _ h2' => absurd h2 h2',
      fun _ _ hl => by omega, fun _ _ hl _ => by omega, ?_, ?_, ?_⟩
    · rw [hv]
      simp only [htf]
      by_cases hmin : 60 ≤ na
      · rw [if_pos hmin]
        refine iff_of_true ⟨_, rfl⟩ ?_
        exact Or.inr (Or.inr (Or.inr (Or.inr (Or.inr (Or.inr (Or.inr (Or.inl ⟨hl3, hmin⟩)))))))
      · rw [if_neg hmin]
        by_cases hsec : 60 ≤ nb
        · rw [if_pos hsec]
          refine iff_of_true ⟨_, rfl⟩ ?_
          exact Or.inr (Or.inr (Or.inr (Or.inr (Or.inr (Or.inr (Or.inl hsec))))))
        · rw [if_neg hsec]
          by_cases hzero : nh = 0 ∧ na = 0 ∧ nb = 0
          · rw [if_pos hzero]
            refine iff_of_true ⟨_, rfl⟩ ?_
            exact Or.inr (Or.inr (Or.inr (Or.inr (Or.inr (Or.inr (Or.inr (Or.inr hzero)))))))
          · rw [if_neg hzero]
            refine iff_of_false (by simp) ?_
            rintro (h | h | h | h | ⟨p, hp, hnone⟩ | ⟨p, hp, n, hn, hneg⟩ | h | ⟨_, hm⟩ |
              ⟨hz0, hz1, hz2⟩)
            · exact h1 h
            · exact h h2
            · omega
            · omega
            · obtain ⟨n, hn', _⟩ := hnum p hp
              rw [hn'] at hnone
              exact absurd hnone (by simp)
            · obtain ⟨n', hn', hn0'⟩ := hnum p hp
              rw [hn'] at hn
              have : n' = n := by injection hn
              omega
            · omega
            · omega
            · exact hzero ⟨hz0, hz1, hz2⟩
    · intro v h
      rw [hv] at h
      simp only [htf]
      split_ifs at h <;> simp at h <;> omega
    · intro _ _ _ hmin
      simp only [htf] at hmin
      rw [hv, if_pos hmin]
    · intro _ _ _ hmin hsec
      simp only [htf] at hmin hsec
      rw [hv, if_neg (by omega), if_pos hsec]
    · intro _ _ _ hmin hsec hzero
      simp only [htf] at hmin hsec hzero
      rw [hv, if_neg (by omega), if_neg (by omega), if_pos hzero]

/-- Counterexample to C6 as stated: the input " 1:30 " contains characters
that are neither digits nor colons (the surrounding spaces), so by the claim's
reject list it would be invalid, yet `validateTimeString` accepts it with 90
seconds, because the source trims the input before any check. -/
theorem C6_validateTimeString_counterexample :
    validateTimeString (String.data " 1:30 ") = .valid 90 ∧
    ¬ ((String.data " 1:30 ").all (fun c => c.isDigit || c == ':') = true) := by decide

/-- Witness for C6 (amended): "1:40:00" parses to 6000 = 1*3600 + 40*60 + 0
seconds, and an all-whitespace input trims to empty and is rejected with the
empty-input message. -/
theorem C6_validateTimeString_characterization_witness :
    (validateTimeString (String.data "1:40:00") = .valid 6000 ∧
      jsTrim (String.data "  ") = []) ∧
    (6000 : ℤ) = (timeFields (String.data "1:40:00")).1 * 3600 +
      (timeFields (String.data "1:40:00")).2.1 * 60 +
      (timeFields (String.data "1:40:00")).2.2 ∧
    validateTimeString (String.data "  ") = .invalid "Enter a time" :=
  ⟨⟨by decide, by decide⟩,
    (C6_validateTimeString_characterization (String.data "1:40:00")).2.1 6000 (by decide),
    (C6_validateTimeString_characterization (String.data "  ")).2.2.1 (by decide)⟩

end BlockLens
